import Mathlib

/-!
# Campus event participation: registration, attendance, feedback and reports

A shallow embedding of the participation core of `src/backend/server.js`:
the three mutating routes `POST /register`, `POST /attendance`,
`POST /feedback`, and the report queries `GET /reports/attendance`,
`GET /reports/student-participation` and `GET /reports/top-students`.

The relational store is a record of tables, each table a list of rows.
A route is a function from the store (and the request body) to the new store
and the HTTP response; its argument `now` is the reading of
`CURRENT_TIMESTAMP` when the request is served.  The SQL text of every query
is rebuilt from a small relational layer (`leftJoin`, `groupBy`, a stable sort
for `ORDER BY`).  The table declarations live in `utils/database`, outside the
sources at hand; their keys and constraints follow the persisted state layout
of the specification.
-/

namespace EventManagement

/-! ## Request values -/

/-- A value of a JSON request body as the routes inspect it.  Numbers are
exact rationals (a JSON body carries no NaN). -/
inductive JsValue where
  | undefined
  | null
  | bool (b : Bool)
  | number (q : ℚ)
  | string (s : String)
  deriving DecidableEq

/-! ## Tables -/

/-- A row of `students`. -/
structure Student where
  id : Nat
  name : String
  email : String
  deriving DecidableEq

/-- A row of `events`; `max_capacity` is `none` for SQL NULL. -/
structure Event where
  id : Nat
  title : String
  max_capacity : Option Int
  deriving DecidableEq

/-- A row of `registrations`. -/
structure Registration where
  id : Nat
  student_id : Nat
  event_id : Nat
  status : String
  created_at : Nat
  deriving DecidableEq

/-- A row of `attendance`. -/
structure Attendance where
  id : Nat
  student_id : Nat
  event_id : Nat
  status : String
  marked_at : Nat
  deriving DecidableEq

/-- A row of `feedback`. -/
structure Feedback where
  id : Nat
  student_id : Nat
  event_id : Nat
  rating : ℚ
  comment : Option String
  submitted_at : Nat
  deriving DecidableEq

/-- The store behind `database`: whether the connection enforces foreign keys,
and the five tables the participation core reads and writes. -/
structure Store where
  foreign_keys : Bool
  students : List Student
  events : List Event
  registrations : List Registration
  attendance : List Attendance
  feedback : List Feedback
  deriving DecidableEq

/-- The error a failed `database.run` throws, as far as the routes tell them
apart: `/UNIQUE/.test(err.message)` holds for `unique` only. -/
inductive DbError where
  | unique
  | foreignKey
  deriving DecidableEq

/-- The HTTP response of a route: `res.status(code).json(row)` or
`res.status(code).json({ error })`.  The body is `none` when the row read back
is `undefined`. -/
inductive Response (α : Type) where
  | json (code : Nat) (body : Option α)
  | error (code : Nat) (message : String)
  deriving DecidableEq

/-! ## The storage layer -/

/-- Modelled from the spec: the id `database.run` (in `utils/database`, not
among the sources) reports for a new row, the "opaque auto-assigned integer
key" of the data model: one more than the largest id in use. -/
def nextId (ids : List Nat) : Nat :=
  ids.foldr max 0 + 1

/-- Modelled from the spec: the foreign keys of the schema (in `utils/database`,
not among the sources) "from registrations/attendance/feedback to students and
events": the student and the event exist.  They are checked only when the
connection enforces them. -/
def foreignKeysHold (s : Store) (student_id event_id : Nat) : Bool :=
  !s.foreign_keys ||
    (s.students.any (fun st => st.id == student_id) &&
     s.events.any (fun ev => ev.id == event_id))

/-- `SELECT * FROM events WHERE id = ?` through `database.get`. -/
def getEvent (s : Store) (event_id : Nat) : Option Event :=
  s.events.find? (fun ev => ev.id == event_id)

/-- `SELECT COUNT(*) as c FROM registrations WHERE event_id = ?`. -/
def countRegistrations (s : Store) (event_id : Nat) : Nat :=
  (s.registrations.filter (fun r => r.event_id == event_id)).length

/-- Modelled from the spec: the schema of `registrations` (in `utils/database`,
not among the sources), "unique on (student_id,event_id)" with foreign keys.
Under it runs the statement of the source,
`INSERT INTO registrations (student_id, event_id, status) VALUES (?, ?, 'registered')`;
the uniqueness conflict is met while the row is written, the foreign keys once
the statement ends.  Returns the new store and the id of the new row. -/
def insertRegistration (s : Store) (now student_id event_id : Nat) :
    Except DbError (Store × Nat) :=
  if s.registrations.any (fun r => r.student_id == student_id && r.event_id == event_id) then
    .error .unique
  else if !foreignKeysHold s student_id event_id then
    .error .foreignKey
  else
    let id := nextId (s.registrations.map (fun r => r.id))
    .ok ({ s with registrations :=
            s.registrations ++ [⟨id, student_id, event_id, "registered", now⟩] }, id)

/-- `SELECT * FROM registrations WHERE id = ?`. -/
def getRegistration (s : Store) (id : Nat) : Option Registration :=
  s.registrations.find? (fun r => r.id == id)

/-- Modelled from the spec: the schema of `attendance` (in `utils/database`, not
among the sources), "unique on (student_id,event_id)" with foreign keys.  Under
it runs the statement of the source,
`INSERT INTO attendance (student_id, event_id, status) VALUES (?, ?, ?)`. -/
def insertAttendance (s : Store) (now student_id event_id : Nat) (status : String) :
    Except DbError Store :=
  if s.attendance.any (fun a => a.student_id == student_id && a.event_id == event_id) then
    .error .unique
  else if !foreignKeysHold s student_id event_id then
    .error .foreignKey
  else
    let id := nextId (s.attendance.map (fun a => a.id))
    .ok { s with attendance := s.attendance ++ [⟨id, student_id, event_id, status, now⟩] }

/-- `UPDATE attendance SET status = ?, marked_at = CURRENT_TIMESTAMP
WHERE student_id = ? AND event_id = ?`. -/
def updateAttendance (s : Store) (now student_id event_id : Nat) (status : String) : Store :=
  { s with attendance := s.attendance.map (fun a =>
      if a.student_id == student_id && a.event_id == event_id then
        { a with status := status, marked_at := now }
      else a) }

/-- `SELECT * FROM attendance WHERE student_id = ? AND event_id = ?`. -/
def getAttendance (s : Store) (student_id event_id : Nat) : Option Attendance :=
  s.attendance.find? (fun a => a.student_id == student_id && a.event_id == event_id)

/-- Modelled from the spec: the schema of `feedback` (in `utils/database`, not
among the sources), "unique on (student_id,event_id)" with foreign keys.  Under
it runs the statement of the source,
`INSERT INTO feedback (student_id, event_id, rating, comment) VALUES (?, ?, ?, ?)`. -/
def insertFeedback (s : Store) (now student_id event_id : Nat) (rating : ℚ)
    (comment : Option String) : Except DbError Store :=
  if s.feedback.any (fun f => f.student_id == student_id && f.event_id == event_id) then
    .error .unique
  else if !foreignKeysHold s student_id event_id then
    .error .foreignKey
  else
    let id := nextId (s.feedback.map (fun f => f.id))
    .ok { s with feedback :=
            s.feedback ++ [⟨id, student_id, event_id, rating, comment, now⟩] }

/-- `UPDATE feedback SET rating = ?, comment = ?, submitted_at = CURRENT_TIMESTAMP
WHERE student_id = ? AND event_id = ?`. -/
def updateFeedback (s : Store) (now student_id event_id : Nat) (rating : ℚ)
    (comment : Option String) : Store :=
  { s with feedback := s.feedback.map (fun f =>
      if f.student_id == student_id && f.event_id == event_id then
        { f with rating := rating, comment := comment, submitted_at := now }
      else f) }

/-- `SELECT * FROM feedback WHERE student_id = ? AND event_id = ?`. -/
def getFeedback (s : Store) (student_id event_id : Nat) : Option Feedback :=
  s.feedback.find? (fun f => f.student_id == student_id && f.event_id == event_id)

/-! ## The mutating routes -/

/-- `POST /register`.  Ids of the request body are naturals, `0` standing for
every falsy id (absent, null, zero). -/
def register (s : Store) (now student_id event_id : Nat) : Store × Response Registration :=
  if student_id = 0 ∨ event_id = 0 then
    (s, .error 400 "student_id and event_id required")
  else
    match getEvent s event_id with
    | none => (s, .error 404 "Event not found")
    | some event =>
      let c := countRegistrations s event_id
      if event.max_capacity.any (fun cap => cap ≠ 0 ∧ cap ≤ (c : Int)) then
        (s, .error 409 "Event capacity reached")
      else
        match insertRegistration s now student_id event_id with
        | .ok (s', id) => (s', .json 201 (getRegistration s' id))
        | .error e =>
          if e = .unique then (s, .error 409 "Student already registered")
          else (s, .error 500 "Failed to register student")

/-- The status stored by `POST /attendance`:
`status && ["present", "absent"].includes(status) ? status : "present"`. -/
def attStatus (status : JsValue) : String :=
  match status with
  | .string st => if st = "present" ∨ st = "absent" then st else "present"
  | _ => "present"

/-- `POST /attendance`. -/
def recordAttendance (s : Store) (now student_id event_id : Nat) (status : JsValue) :
    Store × Response Attendance :=
  if student_id = 0 ∨ event_id = 0 then
    (s, .error 400 "student_id and event_id required")
  else
    match insertAttendance s now student_id event_id (attStatus status) with
    | .ok s' => (s', .json 201 (getAttendance s' student_id event_id))
    | .error e =>
      if e = .unique then
        let s' := updateAttendance s now student_id event_id (attStatus status)
        (s', .json 201 (getAttendance s' student_id event_id))
      else (s, .error 500 "Failed to mark attendance")

/-- `comment || null`: an absent or empty comment is stored as NULL. -/
def commentOrNull (comment : Option String) : Option String :=
  match comment with
  | some c => if c = "" then none else some c
  | none => none

/-- The JavaScript `typeof` of a request value. -/
def JsValue.typeof : JsValue → String
  | .undefined => "undefined"
  | .null => "object"
  | .bool _ => "boolean"
  | .number _ => "number"
  | .string _ => "string"

/-- The numeric value of a request value whose `typeof` is `"number"`. -/
def JsValue.toNumber : JsValue → ℚ
  | .number q => q
  | _ => 0

/-- `POST /feedback`. -/
def recordFeedback (s : Store) (now student_id event_id : Nat) (rating : JsValue)
    (comment : Option String) : Store × Response Feedback :=
  if student_id = 0 ∨ event_id = 0 ∨ rating.typeof ≠ "number" then
    (s, .error 400 "student_id, event_id, rating required")
  else if rating.toNumber < 1 ∨ rating.toNumber > 5 then
    (s, .error 400 "rating must be 1-5")
  else
    match insertFeedback s now student_id event_id rating.toNumber (commentOrNull comment) with
    | .ok s' => (s', .json 201 (getFeedback s' student_id event_id))
    | .error e =>
      if e = .unique then
        let s' := updateFeedback s now student_id event_id rating.toNumber
          (commentOrNull comment)
        (s', .json 201 (getFeedback s' student_id event_id))
      else (s, .error 500 "Failed to submit feedback")

/-! ## The relational layer of the reports -/

/-- The rows a LEFT JOIN makes of one left row: the row paired with each right
row that satisfies the ON condition, or with NULL when none does. -/
def leftJoinRow {α β : Type} (a : α) (r : List β) (cond : α → β → Bool) :
    List (α × Option β) :=
  match r.filter (cond a) with
  | [] => [(a, none)]
  | ms => ms.map (fun b => (a, some b))

/-- `l LEFT JOIN r ON cond`. -/
def leftJoin {α β : Type} (l : List α) (r : List β) (cond : α → β → Bool) :
    List (α × Option β) :=
  l.flatMap (fun a => leftJoinRow a r cond)

/-- `GROUP BY key`: one group per key value, in ascending key order, each
holding its rows in the order of the join. -/
def groupBy {α : Type} (key : α → Nat) (rows : List α) : List (List α) :=
  ((rows.map key).dedup.insertionSort (fun a b => a ≤ b)).map
    (fun k => rows.filter (fun r => key r == k))

/-- SQL division `x / y` on non-NULL numbers: NULL (`none`) when the divisor
is zero, as SQLite evaluates it. -/
def sqlDiv (x y : ℚ) : Option ℚ :=
  if y = 0 then none else some (x / y)

/-- `ROUND(x, 2)` on an exact value: to the nearest hundredth, halves away from
zero.  The source rounds the double quotient; the exact rational stands for it,
so the last digit may differ where the double is not the exact quotient. -/
def round2 (x : ℚ) : ℚ :=
  if 0 ≤ x then (Int.floor (x * 100 + 1 / 2) : ℚ) / 100
  else -((Int.floor (-x * 100 + 1 / 2) : ℚ) / 100)

/-- `ROUND(x, 2)` on a nullable value: NULL stays NULL. -/
def sqlRound2 (x : Option ℚ) : Option ℚ :=
  x.map round2

/-! ## `GET /reports/attendance` -/

/-- A row of the attendance report; `attendance_percentage` is `none` for SQL
NULL. -/
structure AttendanceReportRow where
  id : Nat
  title : String
  registrations : Nat
  presents : Nat
  attendance_percentage : Option ℚ
  deriving DecidableEq

/-- `ON r.event_id = e.id`. -/
def registrationOn (e : Event) (r : Registration) : Bool :=
  r.event_id == e.id

/-- `ON a.event_id = e.id AND a.student_id = r.student_id`; a NULL `r` matches
no row. -/
def attendanceOn (er : Event × Option Registration) (a : Attendance) : Bool :=
  a.event_id == er.1.id &&
    (match er.2 with
     | some r => a.student_id == r.student_id
     | none => false)

/-- `FROM events e LEFT JOIN registrations r ON r.event_id = e.id
LEFT JOIN attendance a ON a.event_id = e.id AND a.student_id = r.student_id`. -/
def attendanceJoin (s : Store) : List ((Event × Option Registration) × Option Attendance) :=
  leftJoin (leftJoin s.events s.registrations registrationOn) s.attendance attendanceOn

/-- `CASE WHEN a.status='present' THEN 1 ELSE 0 END` on a joined attendance column. -/
def presentMark (a : Option Attendance) : Nat :=
  match a with
  | some a => if a.status = "present" then 1 else 0
  | none => 0

/-- The SELECT list of the attendance report over one group. -/
def attendanceAggregate (g : List ((Event × Option Registration) × Option Attendance)) :
    Option AttendanceReportRow :=
  match g with
  | [] => none
  | row :: _ =>
    let registrations := (g.filter (fun x => x.1.2.isSome)).length
    let presents := (g.map (fun x => presentMark x.2)).sum
    some { id := row.1.1.id
           title := row.1.1.title
           registrations := registrations
           presents := presents
           attendance_percentage :=
             if registrations = 0 then some 0
             else sqlRound2 (sqlDiv (100 * (presents : ℚ)) (registrations : ℚ)) }

/-- `GET /reports/attendance`. -/
def attendanceReport (s : Store) : List AttendanceReportRow :=
  (groupBy (fun x => x.1.1.id) (attendanceJoin s)).filterMap attendanceAggregate

/-! ## `GET /reports/student-participation` and `GET /reports/top-students` -/

/-- A row of the two student reports. -/
structure ParticipationRow where
  student_id : Nat
  name : String
  email : String
  events_attended : Nat
  deriving DecidableEq

/-- `FROM students s LEFT JOIN attendance a ON s.id = a.student_id`. -/
def participationJoin (s : Store) : List (Student × Option Attendance) :=
  leftJoin s.students s.attendance (fun st a => st.id == a.student_id)

/-- The SELECT list of the student reports over one group. -/
def participationAggregate (g : List (Student × Option Attendance)) : Option ParticipationRow :=
  match g with
  | [] => none
  | row :: _ =>
    some { student_id := row.1.id
           name := row.1.name
           email := row.1.email
           events_attended := (g.map (fun x => presentMark x.2)).sum }

/-- The grouped rows both student reports sort: `GROUP BY s.id`. -/
def participationGroups (s : Store) : List ParticipationRow :=
  (groupBy (fun x => x.1.id) (participationJoin s)).filterMap participationAggregate

/-- `ORDER BY events_attended DESC, s.name ASC`.  Names compare as SQLite's
BINARY collation does, code point by code point. -/
def participationOrder (a b : ParticipationRow) : Prop :=
  b.events_attended < a.events_attended ∨
    (a.events_attended = b.events_attended ∧ a.name.toList ≤ b.name.toList)

instance : DecidableRel participationOrder :=
  fun a b => by unfold participationOrder; exact inferInstance

/-- `ORDER BY events_attended DESC`. -/
def topOrder (a b : ParticipationRow) : Prop :=
  b.events_attended ≤ a.events_attended

instance : DecidableRel topOrder :=
  fun a b => by unfold topOrder; exact inferInstance

/-- `GET /reports/student-participation`. -/
def studentParticipation (s : Store) : List ParticipationRow :=
  (participationGroups s).insertionSort participationOrder

/-- `GET /reports/top-students`: rows that tie on `events_attended` stay in the
order the grouping produced them, then `LIMIT 3`. -/
def topStudents (s : Store) : List ParticipationRow :=
  ((participationGroups s).insertionSort topOrder).take 3

/-! ## Sequences of requests and the properties of the store -/

/-- A request to one of the three mutating routes, with the clock reading at
which the store serves it. -/
inductive Op where
  | register (now student_id event_id : Nat)
  | recordAttendance (now student_id event_id : Nat) (status : JsValue)
  | recordFeedback (now student_id event_id : Nat) (rating : JsValue) (comment : Option String)

/-- The store after a request is served. -/
def applyOp (s : Store) : Op → Store
  | .register now student_id event_id => (register s now student_id event_id).1
  | .recordAttendance now student_id event_id status =>
    (recordAttendance s now student_id event_id status).1
  | .recordFeedback now student_id event_id rating comment =>
    (recordFeedback s now student_id event_id rating comment).1

/-- The store after the requests are served one after another. -/
def runOps (s : Store) (ops : List Op) : Store :=
  ops.foldl applyOp s

/-- The primary key of `events`: no two rows share an id. -/
def EventsKeyed (s : Store) : Prop :=
  (s.events.map (fun ev => ev.id)).Nodup

/-- The primary key of `students`: no two rows share an id. -/
def StudentsKeyed (s : Store) : Prop :=
  (s.students.map (fun st => st.id)).Nodup

/-- At most one Registration per (student, event) pair. -/
def RegistrationsUnique (s : Store) : Prop :=
  (s.registrations.map (fun r => (r.student_id, r.event_id))).Nodup

/-- At most one Attendance row per (student, event) pair. -/
def AttendanceUnique (s : Store) : Prop :=
  (s.attendance.map (fun a => (a.student_id, a.event_id))).Nodup

/-- At most one Feedback row per (student, event) pair. -/
def FeedbackUnique (s : Store) : Prop :=
  (s.feedback.map (fun f => (f.student_id, f.event_id))).Nodup

/-- No event with a positive capacity holds more Registrations than its capacity. -/
def CapacityRespected (s : Store) : Prop :=
  ∀ ev ∈ s.events, ∀ C : Int, ev.max_capacity = some C → 0 < C →
    (countRegistrations s ev.id : Int) ≤ C

/-- The invariant of the store: one row per (student, event) pair in each
ledger, and no event over its positive capacity. -/
def StoreInvariant (s : Store) : Prop :=
  RegistrationsUnique s ∧ AttendanceUnique s ∧ FeedbackUnique s ∧ CapacityRespected s

instance (s : Store) : Decidable (EventsKeyed s) := by
  unfold EventsKeyed; exact inferInstance

instance (s : Store) : Decidable (StudentsKeyed s) := by
  unfold StudentsKeyed; exact inferInstance

instance (s : Store) : Decidable (RegistrationsUnique s) := by
  unfold RegistrationsUnique; exact inferInstance

instance (s : Store) : Decidable (AttendanceUnique s) := by
  unfold AttendanceUnique; exact inferInstance

instance (s : Store) : Decidable (FeedbackUnique s) := by
  unfold FeedbackUnique; exact inferInstance

/-- The number of Attendance rows of a student with status 'present', over all events. -/
def presentCount (s : Store) (student_id : Nat) : Nat :=
  (s.attendance.filter (fun a => a.student_id == student_id && a.status == "present")).length

/-- The Registrations of an event whose (student, event) pair has an
Attendance row with status 'present'. -/
def presentRegistrations (s : Store) (event_id : Nat) : List Registration :=
  s.registrations.filter (fun r => r.event_id == event_id &&
    s.attendance.any (fun a =>
      a.event_id == event_id && a.student_id == r.student_id && a.status == "present"))

/-- The scenario of the registration ledger: one event of capacity 2 and the
students A, B, C (ids 1, 2, 3), all ledgers empty. -/
def capacityTwoStore : Store :=
  { foreign_keys := true
    students := [⟨1, "A", "a@campus.edu"⟩, ⟨2, "B", "b@campus.edu"⟩, ⟨3, "C", "c@campus.edu"⟩]
    events := [⟨1, "Hackathon", some 2⟩]
    registrations := []
    attendance := []
    feedback := [] }

/-- The scenario of the participation ranking: A with two present marks, B
with one, C with none (an absent mark only), no Registration at all. -/
def rankingStore : Store :=
  { foreign_keys := false
    students := [⟨1, "A", "a@campus.edu"⟩, ⟨2, "B", "b@campus.edu"⟩, ⟨3, "C", "c@campus.edu"⟩]
    events := [⟨1, "Hackathon", some 2⟩, ⟨2, "Workshop", none⟩]
    registrations := []
    attendance := [⟨1, 2, 1, "present", 10⟩, ⟨2, 1, 1, "present", 11⟩,
      ⟨3, 3, 1, "absent", 12⟩, ⟨4, 1, 2, "present", 13⟩]
    feedback := [] }

/-- The scenario of the attendance report: A and B registered for the
Hackathon, A present and B absent; C is marked present at the Hackathon and A
at the Workshop without a Registration. -/
def reportStore : Store :=
  { foreign_keys := true
    students := [⟨1, "A", "a@campus.edu"⟩, ⟨2, "B", "b@campus.edu"⟩, ⟨3, "C", "c@campus.edu"⟩]
    events := [⟨1, "Hackathon", some 2⟩, ⟨2, "Workshop", none⟩]
    registrations := [⟨1, 1, 1, "registered", 1⟩, ⟨2, 2, 1, "registered", 2⟩]
    attendance := [⟨1, 1, 1, "present", 10⟩, ⟨2, 2, 1, "absent", 11⟩,
      ⟨3, 3, 1, "present", 12⟩, ⟨4, 1, 2, "present", 13⟩]
    feedback := [] }

/-- Two students without any attendance, the later one first by name. -/
def tiedStudentsStore : Store :=
  { foreign_keys := true
    students := [⟨1, "Bob", "bob@campus.edu"⟩, ⟨2, "Alice", "alice@campus.edu"⟩]
    events := []
    registrations := []
    attendance := []
    feedback := [] }

/-! ## Lists of rows under a uniqueness constraint -/

/-- In a table with a unique key, the rows a key-determined condition selects
are the row `find?` returns, if any. -/
theorem filter_eq_find_toList {α κ : Type} (key : α → κ) (p : α → Bool) (l : List α)
    (h : (l.map key).Nodup) (hp : ∀ x y, p x = true → p y = true → key x = key y) :
    l.filter p = (l.find? p).toList := by
  induction l with
  | nil => rfl
  | cons a l ih =>
    rw [List.map_cons, List.nodup_cons] at h
    by_cases ha : p a = true
    · have hnil : l.filter p = [] := by
        rw [List.filter_eq_nil_iff]
        intro y hy hpy
        exact h.1 (hp a y ha hpy ▸ List.mem_map_of_mem key hy)
      simp [List.filter_cons, List.find?_cons, ha, hnil]
    · simp [List.filter_cons, List.find?_cons, ha, ih h.2]

/-- Appending a row whose key is new keeps the key unique. -/
theorem nodup_map_append_singleton {α κ : Type} (key : α → κ) (l : List α) (a : α)
    (h : (l.map key).Nodup) (hnew : ∀ x ∈ l, key x ≠ key a) :
    ((l ++ [a]).map key).Nodup := by
  rw [List.map_append, List.nodup_append]
  refine ⟨h, by simp, ?_⟩
  intro k hk hk'
  simp only [List.map_cons, List.map_nil, List.mem_singleton] at hk'
  obtain ⟨x, hx, rfl⟩ := List.mem_map.mp hk
  exact hnew x hx hk'

/-- Updating rows in place without touching their key keeps the key column. -/
theorem map_key_map_of_preserved {α κ : Type} (key : α → κ) (f : α → α) (l : List α)
    (hf : ∀ x, key (f x) = key x) : (l.map f).map key = l.map key := by
  rw [List.map_map]
  exact List.map_congr_left (fun x _ => hf x)


/-! ## Registration: duplicates and capacity -/

theorem any_key_of_mem {α : Type} (l : List α) (p : α → Bool) (x : α) (hx : x ∈ l)
    (hp : p x = true) : l.any p = true :=
  List.any_eq_true.mpr ⟨x, hx, hp⟩

/-- C1 (as amended): when a Registration for (student, event) exists and the
event is not full (its capacity is NULL or 0, or its registration count is below
the capacity), `register` answers 409 'Student already registered' and leaves
the store as it was. -/
theorem register_duplicate_when_not_full (s : Store) (now student_id event_id : Nat)
    (event : Event) (hs : student_id ≠ 0) (he : event_id ≠ 0)
    (hev : getEvent s event_id = some event)
    (hroom : ∀ C : Int, event.max_capacity = some C →
      C = 0 ∨ (countRegistrations s event_id : Int) < C)
    (hdup : ∃ r ∈ s.registrations, r.student_id = student_id ∧ r.event_id = event_id) :
    register s now student_id event_id = (s, .error 409 "Student already registered") := by
  obtain ⟨r, hr, hrs, hre⟩ := hdup
  have hany : s.registrations.any
      (fun r => r.student_id == student_id && r.event_id == event_id) = true :=
    any_key_of_mem _ _ r hr (by simp [hrs, hre])
  have hcap : event.max_capacity.any
      (fun cap => decide (cap ≠ 0 ∧ cap ≤ (countRegistrations s event_id : Int))) = false := by
    cases hc : event.max_capacity with
    | none => rfl
    | some C =>
      rcases hroom C hc with h0 | hlt
      · simp [h0]
      · simp only [Option.any_some, decide_eq_false_iff_not, not_and, not_le]
        intro _
        exact hlt
  unfold register
  rw [if_neg (by simp [hs, he])]
  simp only [hev]
  rw [if_neg (by rw [hcap]; simp)]
  simp [insertRegistration, hany]

/-- C1 (witness): in an event of capacity 3 holding A and B, A registers again. -/
theorem register_duplicate_when_not_full_witness :
    register ⟨true, [⟨1, "A", "a@campus.edu"⟩, ⟨2, "B", "b@campus.edu"⟩], [⟨1, "Hackathon", some 3⟩],
        [⟨1, 1, 1, "registered", 10⟩, ⟨2, 2, 1, "registered", 11⟩], [], []⟩ 12 1 1
      = (⟨true, [⟨1, "A", "a@campus.edu"⟩, ⟨2, "B", "b@campus.edu"⟩], [⟨1, "Hackathon", some 3⟩],
        [⟨1, 1, 1, "registered", 10⟩, ⟨2, 2, 1, "registered", 11⟩], [], []⟩,
        .error 409 "Student already registered") :=
  register_duplicate_when_not_full _ 12 1 1 ⟨1, "Hackathon", some 3⟩ (by decide) (by decide)
    (by decide) (by intro C hC; right; cases hC; decide) ⟨⟨1, 1, 1, "registered", 10⟩, by decide, rfl, rfl⟩

/-- C1 (counterexample): in the event of capacity 2, after A, B and C tried to
register, A is registered and the event exists, yet A registering again is
answered 409 'Event capacity reached', not 'Student already registered'. -/
theorem register_duplicate_full_event_capacity_first :
    (∃ r ∈ (runOps capacityTwoStore
        [.register 1 1 1, .register 2 2 1, .register 3 3 1]).registrations,
      r.student_id = 1 ∧ r.event_id = 1) ∧
    (getEvent (runOps capacityTwoStore
        [.register 1 1 1, .register 2 2 1, .register 3 3 1]) 1).isSome = true ∧
    (register (runOps capacityTwoStore
        [.register 1 1 1, .register 2 2 1, .register 3 3 1]) 4 1 1).2
      = .error 409 "Event capacity reached" ∧
    (register (runOps capacityTwoStore
        [.register 1 1 1, .register 2 2 1, .register 3 3 1]) 4 1 1).2
      ≠ .error 409 "Student already registered" := by
  refine ⟨⟨⟨1, 1, 1, "registered", 1⟩, by decide, rfl, rfl⟩, by decide, by decide, by decide⟩

/-- C2: when an event of positive capacity C already holds at least C
Registrations, `register` answers 409 'Event capacity reached' for every
student, registered for the event or not, and leaves the store as it was. -/
theorem register_capacity_reached (s : Store) (now student_id event_id : Nat)
    (event : Event) (C : Int) (hs : student_id ≠ 0) (he : event_id ≠ 0)
    (hev : getEvent s event_id = some event) (hcap : event.max_capacity = some C)
    (hpos : 0 < C) (hfull : C ≤ (countRegistrations s event_id : Int)) :
    register s now student_id event_id = (s, .error 409 "Event capacity reached") := by
  have hne : C ≠ 0 := by omega
  simp [register, hs, he, hev, hcap, hne, hfull]

/-- C2 (witness): the event of capacity 2 holds A and B; A, already registered,
tries again. -/
theorem register_capacity_reached_witness :
    register (runOps capacityTwoStore [.register 1 1 1, .register 2 2 1]) 3 1 1
      = (runOps capacityTwoStore [.register 1 1 1, .register 2 2 1],
          .error 409 "Event capacity reached") :=
  register_capacity_reached _ 3 1 1 ⟨1, "Hackathon", some 2⟩ 2 (by decide) (by decide)
    (by decide) rfl (by decide) (by decide)

/-! ## Feedback: validation of the rating -/

/-- C5: a rating that is not a number, or is a number below 1 or above 5, is
answered 400 and nothing is written: the store is the one before the call. -/
theorem recordFeedback_invalid_rating (s : Store) (now student_id event_id : Nat)
    (rating : JsValue) (comment : Option String)
    (h : ∀ q : ℚ, rating = .number q → q < 1 ∨ 5 < q) :
    ∃ message, recordFeedback s now student_id event_id rating comment
      = (s, .error 400 message) := by
  unfold recordFeedback
  split
  · exact ⟨_, rfl⟩
  · rename_i hvalid
    have hnum : ∃ q, rating = .number q := by
      cases rating <;> simp [JsValue.typeof] at hvalid ⊢
    obtain ⟨q, rfl⟩ := hnum
    rw [if_pos (by simpa [JsValue.toNumber] using h q rfl)]
    exact ⟨_, rfl⟩

/-- C5 (witness): the ratings "x", 0 and 6 on the scenario store. -/
theorem recordFeedback_invalid_rating_witness :
    (∃ message, recordFeedback capacityTwoStore 1 1 1 (.string "x") none
      = (capacityTwoStore, .error 400 message)) ∧
    (∃ message, recordFeedback capacityTwoStore 1 1 1 (.number 0) none
      = (capacityTwoStore, .error 400 message)) ∧
    (∃ message, recordFeedback capacityTwoStore 1 1 1 (.number 6) none
      = (capacityTwoStore, .error 400 message)) :=
  ⟨recordFeedback_invalid_rating _ 1 1 1 _ none (by intro q hq; cases hq),
   recordFeedback_invalid_rating _ 1 1 1 _ none
     (by intro q hq; cases hq; left; decide),
   recordFeedback_invalid_rating _ 1 1 1 _ none
     (by intro q hq; cases hq; right; decide)⟩

/-- C6 (counterexample): the rating 2.5, a number that is no integer, is not
rejected: the call answers 201 and the Feedback row it inserts carries 2.5. -/
theorem recordFeedback_accepts_fractional_rating :
    (¬ ∃ n : Int, (n : ℚ) = mkRat 5 2) ∧
    recordFeedback capacityTwoStore 7 1 1 (.number (mkRat 5 2)) none
      = ({ capacityTwoStore with feedback := [⟨1, 1, 1, mkRat 5 2, none, 7⟩] },
          .json 201 (some ⟨1, 1, 1, mkRat 5 2, none, 7⟩)) := by
  refine ⟨?_, by decide⟩
  rintro ⟨n, hn⟩
  have h := congrArg Rat.den hn
  rw [Rat.den_intCast] at h
  revert h
  decide

/-- The three outcomes of `recordFeedback`: an error that leaves the store
alone, an insert of a new row, or an overwrite of the rows of the pair. -/
theorem recordFeedback_cases (s : Store) (now student_id event_id : Nat)
    (rating : JsValue) (comment : Option String) :
    (∃ code message, recordFeedback s now student_id event_id rating comment
      = (s, .error code message)) ∨
    (∃ q : ℚ, rating = .number q ∧ 1 ≤ q ∧ q ≤ 5 ∧
      ((recordFeedback s now student_id event_id rating comment
          = ({ s with feedback := s.feedback ++
                [⟨nextId (s.feedback.map (fun f => f.id)), student_id, event_id, q,
                  commentOrNull comment, now⟩] },
             .json 201 (getFeedback { s with feedback := s.feedback ++
                [⟨nextId (s.feedback.map (fun f => f.id)), student_id, event_id, q,
                  commentOrNull comment, now⟩] } student_id event_id)) ∧
        s.feedback.any (fun f => f.student_id == student_id && f.event_id == event_id)
          = false) ∨
       recordFeedback s now student_id event_id rating comment
          = (updateFeedback s now student_id event_id q (commentOrNull comment),
             .json 201 (getFeedback
               (updateFeedback s now student_id event_id q (commentOrNull comment))
               student_id event_id)))) := by
  by_cases h1 : student_id = 0 ∨ event_id = 0 ∨ rating.typeof ≠ "number"
  · left
    exact ⟨400, _, by rw [recordFeedback, if_pos h1]⟩
  · have hnum : ∃ q, rating = .number q := by
      cases rating <;> simp [JsValue.typeof] at h1 ⊢
    obtain ⟨q, rfl⟩ := hnum
    by_cases h2 : q < 1 ∨ q > 5
    · left
      exact ⟨400, _, by rw [recordFeedback, if_neg h1, if_pos (by simpa [JsValue.toNumber] using h2)]⟩
    · have hq : 1 ≤ q ∧ q ≤ 5 :=
        ⟨not_lt.mp (fun h => h2 (Or.inl h)), not_lt.mp (fun h => h2 (Or.inr h))⟩
      rw [recordFeedback, if_neg h1, if_neg (by simpa [JsValue.toNumber] using h2)]
      simp only [JsValue.toNumber, insertFeedback]
      by_cases h3 : s.feedback.any
          (fun f => f.student_id == student_id && f.event_id == event_id) = true
      · right
        refine ⟨q, rfl, hq.1, hq.2, Or.inr ?_⟩
        rw [if_pos h3]
        simp
      · by_cases h4 : (!foreignKeysHold s student_id event_id) = true
        · left
          refine ⟨500, "Failed to submit feedback", ?_⟩
          rw [if_neg h3, if_pos h4]
          simp
        · right
          refine ⟨q, rfl, hq.1, hq.2, Or.inl ⟨?_, by simpa using h3⟩⟩
          rw [if_neg h3, if_neg h4]

/-- C6 (as amended): `recordFeedback` accepts a rating exactly when it is a
number between 1 and 5, integer or not; every other rating leaves the store
untouched, and every Feedback row the call inserts or overwrites carries the
submitted number, which lies between 1 and 5. -/
theorem recordFeedback_rating_in_range (s : Store) (now student_id event_id : Nat)
    (rating : JsValue) (comment : Option String) :
    ((∃ q : ℚ, rating = .number q ∧ 1 ≤ q ∧ q ≤ 5) ∨
      (recordFeedback s now student_id event_id rating comment).1 = s) ∧
    (∀ code body, (recordFeedback s now student_id event_id rating comment).2
        = .json code body → ∃ q : ℚ, rating = .number q ∧ 1 ≤ q ∧ q ≤ 5) ∧
    (∀ f ∈ (recordFeedback s now student_id event_id rating comment).1.feedback,
      f ∉ s.feedback →
        rating = .number f.rating ∧ 1 ≤ f.rating ∧ f.rating ≤ 5) := by
  rcases recordFeedback_cases s now student_id event_id rating comment with
    ⟨code, message, h⟩ | ⟨q, rfl, hq1, hq5, ⟨h, _⟩ | h⟩
  · rw [h]
    exact ⟨Or.inr rfl, by simp, fun f hf hn => absurd hf hn⟩
  · rw [h]
    refine ⟨Or.inl ⟨q, rfl, hq1, hq5⟩, fun _ _ _ => ⟨q, rfl, hq1, hq5⟩, ?_⟩
    intro f hf hn
    simp only [List.mem_append, List.mem_singleton] at hf
    rcases hf with hf | rfl
    · exact absurd hf hn
    · exact ⟨rfl, hq1, hq5⟩
  · rw [h]
    refine ⟨Or.inl ⟨q, rfl, hq1, hq5⟩, fun _ _ _ => ⟨q, rfl, hq1, hq5⟩, ?_⟩
    intro f hf hn
    simp only [updateFeedback, List.mem_map] at hf
    obtain ⟨f0, hf0, rfl⟩ := hf
    by_cases hk : (f0.student_id == student_id && f0.event_id == event_id) = true
    · rw [if_pos hk]
      exact ⟨rfl, hq1, hq5⟩
    · rw [if_neg hk] at hn
      exact absurd hf0 hn
/-! ## Top students against the participation ranking -/

/-- C7: with two students tied at no attendance, Bob (id 1) and Alice (id 2),
the participation report lists Alice before Bob, the top-students report Bob
before Alice: top-students is not the first rows of the participation report. -/
theorem topStudents_ne_take_studentParticipation :
    topStudents tiedStudentsStore
      = [⟨1, "Bob", "bob@campus.edu", 0⟩, ⟨2, "Alice", "alice@campus.edu", 0⟩] ∧
    (studentParticipation tiedStudentsStore).take 3
      = [⟨2, "Alice", "alice@campus.edu", 0⟩, ⟨1, "Bob", "bob@campus.edu", 0⟩] ∧
    topStudents tiedStudentsStore ≠ (studentParticipation tiedStudentsStore).take 3 := by
  decide

/-! ## The outcomes of the mutating routes -/

/-- The two outcomes of `register` on the store: it is left alone, or the
event exists, has room, the pair is new, and one row is appended. -/
theorem register_cases (s : Store) (now student_id event_id : Nat) :
    (register s now student_id event_id).1 = s ∨
    (∃ event, getEvent s event_id = some event ∧
      event.max_capacity.any
        (fun cap => decide (cap ≠ 0 ∧ cap ≤ (countRegistrations s event_id : Int))) = false ∧
      s.registrations.any
        (fun r => r.student_id == student_id && r.event_id == event_id) = false ∧
      (register s now student_id event_id).1 =
        { s with registrations := s.registrations ++
            [⟨nextId (s.registrations.map (fun r => r.id)), student_id, event_id,
              "registered", now⟩] }) := by
  by_cases h1 : student_id = 0 ∨ event_id = 0
  · left
    rw [register, if_pos h1]
  · rw [register, if_neg h1]
    cases hev : getEvent s event_id with
    | none => left; rfl
    | some event =>
      simp only
      by_cases h2 : event.max_capacity.any
          (fun cap => decide (cap ≠ 0 ∧ cap ≤ (countRegistrations s event_id : Int))) = true
      · left
        rw [if_pos h2]
      · rw [if_neg h2]
        unfold insertRegistration
        by_cases h3 : s.registrations.any
            (fun r => r.student_id == student_id && r.event_id == event_id) = true
        · left
          rw [if_pos h3]
          simp
        · by_cases h4 : (!foreignKeysHold s student_id event_id) = true
          · left
            rw [if_neg h3, if_pos h4]
            simp
          · right
            rw [if_neg h3, if_neg h4]
            exact ⟨event, rfl, by simpa using h2, by simpa using h3, rfl⟩

/-- The outcomes of `recordAttendance`: a 400 for a falsy id, a 500 when the
pair is new and a foreign key fails, an insert of a new row, or an overwrite
of the rows of the pair. -/
theorem recordAttendance_cases (s : Store) (now student_id event_id : Nat)
    (status : JsValue) :
    ((student_id = 0 ∨ event_id = 0 ∨
        (s.attendance.any (fun a => a.student_id == student_id && a.event_id == event_id)
            = false ∧ foreignKeysHold s student_id event_id = false)) ∧
      ∃ code message, recordAttendance s now student_id event_id status
        = (s, .error code message)) ∨
    (student_id ≠ 0 ∧ event_id ≠ 0 ∧
      s.attendance.any (fun a => a.student_id == student_id && a.event_id == event_id)
        = false ∧ foreignKeysHold s student_id event_id = true ∧
      recordAttendance s now student_id event_id status
        = ({ s with attendance := s.attendance ++
              [⟨nextId (s.attendance.map (fun a => a.id)), student_id, event_id,
                attStatus status, now⟩] },
           .json 201 (getAttendance { s with attendance := s.attendance ++
              [⟨nextId (s.attendance.map (fun a => a.id)), student_id, event_id,
                attStatus status, now⟩] } student_id event_id))) ∨
    (student_id ≠ 0 ∧ event_id ≠ 0 ∧
      s.attendance.any (fun a => a.student_id == student_id && a.event_id == event_id)
        = true ∧
      recordAttendance s now student_id event_id status
        = (updateAttendance s now student_id event_id (attStatus status),
           .json 201 (getAttendance
             (updateAttendance s now student_id event_id (attStatus status))
             student_id event_id))) := by
  by_cases h1 : student_id = 0 ∨ event_id = 0
  · left
    refine ⟨by tauto, 400, "student_id and event_id required", ?_⟩
    rw [recordAttendance, if_pos h1]
  · have hs : student_id ≠ 0 := fun h => h1 (Or.inl h)
    have he : event_id ≠ 0 := fun h => h1 (Or.inr h)
    rw [recordAttendance, if_neg h1]
    unfold insertAttendance
    by_cases h3 : s.attendance.any
        (fun a => a.student_id == student_id && a.event_id == event_id) = true
    · right; right
      refine ⟨hs, he, h3, ?_⟩
      rw [if_pos h3]
      simp
    · have h3' : s.attendance.any
          (fun a => a.student_id == student_id && a.event_id == event_id) = false := by
        simpa using h3
      by_cases h4 : (!foreignKeysHold s student_id event_id) = true
      · left
        refine ⟨Or.inr (Or.inr ⟨h3', by simpa using h4⟩), 500, "Failed to mark attendance", ?_⟩
        rw [if_neg h3, if_pos h4]
        simp
      · right; left
        refine ⟨hs, he, h3', by simpa using h4, ?_⟩
        rw [if_neg h3, if_neg h4]

/-! ## Attendance: one row per pair, newest status wins -/

/-- C4: on a store whose attendance table has one row per (student, event), a
call of `recordAttendance` succeeds exactly when both ids are given and the
pair has a row already or its foreign keys hold; a call that succeeds answers
201 with a row that is afterwards the only Attendance row of the pair, whose
status is the submitted one when that is 'present' or 'absent' and 'present'
otherwise; the rows of every other pair are as before.  No Registration is
asked for. -/
theorem recordAttendance_single_row (s : Store) (now student_id event_id : Nat)
    (status : JsValue) (hU : AttendanceUnique s) :
    ((∃ code body, (recordAttendance s now student_id event_id status).2 = .json code body) ↔
      (student_id ≠ 0 ∧ event_id ≠ 0 ∧
        ((∃ a ∈ s.attendance, a.student_id = student_id ∧ a.event_id = event_id) ∨
          foreignKeysHold s student_id event_id = true))) ∧
    (∀ code body, (recordAttendance s now student_id event_id status).2 = .json code body →
      ∃ row : Attendance, code = 201 ∧ body = some row ∧
        (recordAttendance s now student_id event_id status).1.attendance.filter
          (fun a => a.student_id == student_id && a.event_id == event_id) = [row] ∧
        row.student_id = student_id ∧ row.event_id = event_id ∧ row.marked_at = now ∧
        (status = .string "present" → row.status = "present") ∧
        (status = .string "absent" → row.status = "absent") ∧
        (status ≠ .string "present" → status ≠ .string "absent" → row.status = "present") ∧
        (recordAttendance s now student_id event_id status).1.attendance.filter
          (fun a => !(a.student_id == student_id && a.event_id == event_id))
          = s.attendance.filter
              (fun a => !(a.student_id == student_id && a.event_id == event_id))) := by
  have hst : (status = .string "present" → attStatus status = "present") ∧
      (status = .string "absent" → attStatus status = "absent") ∧
      (status ≠ .string "present" → status ≠ .string "absent" →
        attStatus status = "present") := by
    refine ⟨fun h => by subst h; rfl, fun h => by subst h; rfl, fun h1 h2 => ?_⟩
    cases status with
    | string st =>
      have h1' : st ≠ "present" := fun h => h1 (by rw [h])
      have h2' : st ≠ "absent" := fun h => h2 (by rw [h])
      simp [attStatus, h1', h2']
    | _ => rfl
  rcases recordAttendance_cases s now student_id event_id status with
    ⟨hc, code, message, h⟩ | ⟨hs, he, hnone, hfk, h⟩ | ⟨hs, he, hsome, h⟩
  · rw [h]
    refine ⟨⟨fun ⟨_, _, hj⟩ => (by cases hj), fun ⟨hs, he, hx⟩ => ?_⟩,
      fun _ _ hj => (by cases hj)⟩
    rcases hc with hc | hc | ⟨hnone, hfk⟩
    · exact absurd hc hs
    · exact absurd hc he
    · rcases hx with ⟨a, ha, has, hae⟩ | hx
      · rw [List.any_eq_false] at hnone
        exact absurd (by simp [has, hae]) (hnone a ha)
      · rw [hfk] at hx
        cases hx
  · rw [h]
    refine ⟨⟨fun _ => ⟨hs, he, Or.inr hfk⟩, fun _ => ⟨_, _, rfl⟩⟩, ?_⟩
    intro code body hj
    have hnone' : ∀ a ∈ s.attendance,
        ¬ (a.student_id == student_id && a.event_id == event_id) = true :=
      List.any_eq_false.mp hnone
    refine ⟨⟨nextId (s.attendance.map (fun a => a.id)), student_id, event_id,
      attStatus status, now⟩, ?_, ?_, ?_, rfl, rfl, rfl, hst.1, hst.2.1, hst.2.2, ?_⟩
    · cases hj; rfl
    · cases hj
      simp only [getAttendance]
      rw [List.find?_append, List.find?_eq_none.mpr hnone']
      simp
    · simp only
      rw [List.filter_append, List.filter_eq_nil_iff.mpr hnone']
      simp
    · simp only
      rw [List.filter_append]
      simp
  · rw [h]
    obtain ⟨a0, ha0, hp0⟩ := List.any_eq_true.mp hsome
    have hp0' : a0.student_id = student_id ∧ a0.event_id = event_id := by
      simpa using hp0
    refine ⟨⟨fun _ => ⟨hs, he, Or.inl ⟨a0, ha0, hp0'⟩⟩, fun _ => ⟨_, _, rfl⟩⟩, ?_⟩
    intro code body hj
    have hkey : ∀ x y : Attendance,
        (x.student_id == student_id && x.event_id == event_id) = true →
        (y.student_id == student_id && y.event_id == event_id) = true →
        (x.student_id, x.event_id) = (y.student_id, y.event_id) := by
      intro x y hx hy
      simp only [Bool.and_eq_true, beq_iff_eq] at hx hy
      rw [hx.1, hx.2, hy.1, hy.2]
    have hU' : ((updateAttendance s now student_id event_id (attStatus status)).attendance.map
        (fun a => (a.student_id, a.event_id))).Nodup := by
      simp only [updateAttendance]
      rw [map_key_map_of_preserved]
      · exact hU
      · intro x
        split <;> rfl
    have hfilter := filter_eq_find_toList (fun a : Attendance => (a.student_id, a.event_id))
      (fun a => a.student_id == student_id && a.event_id == event_id) _ hU' hkey
    have hmem : ({ a0 with status := attStatus status, marked_at := now } : Attendance) ∈
        (updateAttendance s now student_id event_id (attStatus status)).attendance := by
      simp only [updateAttendance, List.mem_map]
      exact ⟨a0, ha0, by rw [if_pos hp0]⟩
    cases hfind : getAttendance (updateAttendance s now student_id event_id (attStatus status))
        student_id event_id with
    | none =>
      exfalso
      simp only [getAttendance] at hfind
      exact List.find?_eq_none.mp hfind _ hmem (by simpa using hp0')
    | some row =>
      have hrow_mem := List.mem_of_find?_eq_some hfind
      have hrow_p := List.find?_some hfind
      simp only [Bool.and_eq_true, beq_iff_eq] at hrow_p
      simp only [updateAttendance, List.mem_map] at hrow_mem
      obtain ⟨a1, _, ha1⟩ := hrow_mem
      have hrow : row.status = attStatus status ∧ row.marked_at = now := by
        by_cases hp1 : (a1.student_id == student_id && a1.event_id == event_id) = true
        · rw [if_pos hp1] at ha1
          subst ha1
          exact ⟨rfl, rfl⟩
        · rw [if_neg hp1] at ha1
          subst ha1
          exact absurd (by simpa using hrow_p) hp1
      rw [hfind] at hj
      cases hj
      refine ⟨row, rfl, rfl, ?_, hrow_p.1, hrow_p.2, hrow.2, ?_, ?_, ?_, ?_⟩
      · simp only [getAttendance] at hfind
        rw [hfilter, hfind]
        rfl
      · intro hh; rw [hrow.1]; exact hst.1 hh
      · intro hh; rw [hrow.1]; exact hst.2.1 hh
      · intro h1 h2; rw [hrow.1]; exact hst.2.2 h1 h2
      · simp only [updateAttendance]
        rw [List.filter_map]
        have hcongr : ∀ x ∈ s.attendance,
            ((fun a : Attendance => !(a.student_id == student_id && a.event_id == event_id)) ∘
              (fun a : Attendance =>
                if (a.student_id == student_id && a.event_id == event_id) = true then
                  { a with status := attStatus status, marked_at := now }
                else a)) x
            = (fun a : Attendance => !(a.student_id == student_id && a.event_id == event_id)) x := by
          intro x _
          simp only [Function.comp]
          split <;> rfl
        rw [List.filter_congr hcongr]
        conv_rhs => rw [← List.map_id (List.filter _ s.attendance)]
        apply List.map_congr_left
        intro x hx
        have hx' := (List.mem_filter.mp hx).2
        simp only [Bool.not_eq_true', id] at hx' ⊢
        rw [if_neg (by simp [hx'])]

/-- C4 (witness): recordAttendance(A, E, 'present') then
recordAttendance(A, E, 'absent') ends with one row of status 'absent'. -/
theorem recordAttendance_single_row_witness :
    AttendanceUnique (recordAttendance capacityTwoStore 1 1 1 (.string "present")).1 ∧
    ∃ row : Attendance,
      (recordAttendance (recordAttendance capacityTwoStore 1 1 1 (.string "present")).1
        2 1 1 (.string "absent")).2 = .json 201 (some row) ∧
      (recordAttendance (recordAttendance capacityTwoStore 1 1 1 (.string "present")).1
        2 1 1 (.string "absent")).1.attendance.filter
          (fun a => a.student_id == 1 && a.event_id == 1) = [row] ∧
      row.status = "absent" := by
  refine ⟨by decide, ?_⟩
  obtain ⟨row, _, hbody, hfilter, _, _, _, _, habsent, _⟩ :=
    (recordAttendance_single_row
      (recordAttendance capacityTwoStore 1 1 1 (.string "present")).1 2 1 1
      (.string "absent") (by decide)).2 201 (some ⟨1, 1, 1, "absent", 2⟩) (by decide)
  refine ⟨row, ?_, hfilter, habsent rfl⟩
  rw [← hbody]
  decide

/-! ## The store invariant -/

/-- A row-selecting condition that failed on every row means the key is new. -/
theorem key_new_of_any_false {α : Type} (l : List α) (sid eid : Nat)
    (student_id event_id : α → Nat)
    (h : l.any (fun r => student_id r == sid && event_id r == eid) = false) :
    ∀ x ∈ l, (student_id x, event_id x) ≠ (sid, eid) := by
  intro x hx hkey
  have hne := List.any_eq_false.mp h x hx
  simp only [Prod.mk.injEq] at hkey
  exact hne (by simp [hkey.1, hkey.2])

theorem register_preserves (s : Store) (now student_id event_id : Nat)
    (hE : EventsKeyed s) (hI : StoreInvariant s) :
    EventsKeyed (register s now student_id event_id).1 ∧
      StoreInvariant (register s now student_id event_id).1 := by
  rcases register_cases s now student_id event_id with h | ⟨event, hev, hroom, hnew, h⟩
  · rw [h]; exact ⟨hE, hI⟩
  · rw [h]
    obtain ⟨hR, hA, hF, hC⟩ := hI
    refine ⟨hE, ?_, hA, hF, ?_⟩
    · exact nodup_map_append_singleton (fun r : Registration => (r.student_id, r.event_id))
        _ _ hR (key_new_of_any_false _ _ _ _ _ hnew)
    · intro ev hev' C hcap hpos
      have hold := hC ev hev' C hcap hpos
      simp only [countRegistrations, List.filter_append, List.length_append] at hold ⊢
      by_cases hid : event_id = ev.id
      · have hmem : event ∈ s.events := List.mem_of_find?_eq_some hev
        have hevid : event.id = event_id := by
          have := List.find?_some hev
          simpa using this
        have heq : ev = event :=
          List.inj_on_of_nodup_map hE hev' hmem (by rw [hevid, hid])
        subst heq
        rw [hcap] at hroom
        simp only [Option.any_some, decide_eq_false_iff_not, not_and, not_le] at hroom
        have hlt := hroom (by omega)
        simp only [countRegistrations] at hlt
        rw [← hid]
        simp only [List.filter_cons, beq_self_eq_true, ite_true, List.filter_nil,
          List.length_singleton, Nat.cast_add, Nat.cast_one]
        omega
      · have hne : (event_id == ev.id) = false := by simpa using hid
        simp only [List.filter_cons, hne, List.filter_nil, List.length_nil, Nat.add_zero]
        exact hold

theorem recordAttendance_preserves (s : Store) (now student_id event_id : Nat)
    (status : JsValue) (hE : EventsKeyed s) (hI : StoreInvariant s) :
    EventsKeyed (recordAttendance s now student_id event_id status).1 ∧
      StoreInvariant (recordAttendance s now student_id event_id status).1 := by
  obtain ⟨hR, hA, hF, hC⟩ := hI
  rcases recordAttendance_cases s now student_id event_id status with
    ⟨_, code, message, h⟩ | ⟨_, _, hnew, _, h⟩ | ⟨_, _, _, h⟩
  · rw [h]; exact ⟨hE, hR, hA, hF, hC⟩
  · rw [h]
    refine ⟨hE, hR, ?_, hF, hC⟩
    exact nodup_map_append_singleton (fun a : Attendance => (a.student_id, a.event_id))
      _ _ hA (key_new_of_any_false _ _ _ _ _ hnew)
  · rw [h]
    refine ⟨hE, hR, ?_, hF, hC⟩
    simp only [AttendanceUnique, updateAttendance]
    rw [map_key_map_of_preserved]
    · exact hA
    · intro x
      split <;> rfl

theorem recordFeedback_preserves (s : Store) (now student_id event_id : Nat)
    (rating : JsValue) (comment : Option String) (hE : EventsKeyed s) (hI : StoreInvariant s) :
    EventsKeyed (recordFeedback s now student_id event_id rating comment).1 ∧
      StoreInvariant (recordFeedback s now student_id event_id rating comment).1 := by
  obtain ⟨hR, hA, hF, hC⟩ := hI
  rcases recordFeedback_cases s now student_id event_id rating comment with
    ⟨code, message, h⟩ | ⟨q, _, _, _, ⟨h, hnew⟩ | h⟩
  · rw [h]; exact ⟨hE, hR, hA, hF, hC⟩
  · rw [h]
    refine ⟨hE, hR, hA, ?_, hC⟩
    exact nodup_map_append_singleton (fun f : Feedback => (f.student_id, f.event_id))
      _ _ hF (key_new_of_any_false _ _ _ _ _ hnew)
  · rw [h]
    refine ⟨hE, hR, hA, ?_, hC⟩
    simp only [FeedbackUnique, updateFeedback]
    rw [map_key_map_of_preserved]
    · exact hF
    · intro x
      split <;> rfl

theorem applyOp_preserves (s : Store) (op : Op) (hE : EventsKeyed s) (hI : StoreInvariant s) :
    EventsKeyed (applyOp s op) ∧ StoreInvariant (applyOp s op) := by
  cases op with
  | register now student_id event_id => exact register_preserves s now student_id event_id hE hI
  | recordAttendance now student_id event_id status =>
    exact recordAttendance_preserves s now student_id event_id status hE hI
  | recordFeedback now student_id event_id rating comment =>
    exact recordFeedback_preserves s now student_id event_id rating comment hE hI

theorem runOps_preserves (ops : List Op) :
    ∀ s : Store, EventsKeyed s → StoreInvariant s →
      EventsKeyed (runOps s ops) ∧ StoreInvariant (runOps s ops) := by
  induction ops with
  | nil => intro s hE hI; exact ⟨hE, hI⟩
  | cons op ops ih =>
    intro s hE hI
    have h := applyOp_preserves s op hE hI
    exact ih (applyOp s op) h.1 h.2

/-- C3: from a store (with `events` keyed by id) that has at most one
Registration, one Attendance and one Feedback row per (student, event) pair and
no event of positive capacity C holding more than C Registrations, every
sequence of `register`, `recordAttendance` and `recordFeedback` calls served one
after another ends in a store with the same properties. -/
theorem storeInvariant_runOps (s : Store) (ops : List Op) (hE : EventsKeyed s)
    (hI : StoreInvariant s) : StoreInvariant (runOps s ops) :=
  (runOps_preserves ops s hE hI).2

/-- C3 (witness): from the empty ledgers of the capacity-2 scenario, through
registrations past the capacity, a repeated registration, repeated attendance
and repeated feedback. -/
theorem storeInvariant_runOps_witness :
    EventsKeyed capacityTwoStore ∧ StoreInvariant capacityTwoStore ∧
    StoreInvariant (runOps capacityTwoStore
      [.register 1 1 1, .register 2 2 1, .register 3 3 1, .register 4 1 1,
       .recordAttendance 5 1 1 (.string "present"), .recordAttendance 6 1 1 (.string "absent"),
       .recordFeedback 7 1 1 (.number 5) none, .recordFeedback 8 1 1 (.number 3) (some "ok")]) :=
  have hI : StoreInvariant capacityTwoStore :=
    ⟨by decide, by decide, by decide, by
      intro ev hev C hcap hpos
      simp only [capacityTwoStore, List.mem_singleton] at hev
      subst hev
      cases hcap
      decide⟩
  ⟨by decide, hI, storeInvariant_runOps capacityTwoStore _ (by decide) hI⟩

/-! ## Facts about the relational layer -/

theorem leftJoinRow_fst {α β : Type} (a : α) (r : List β) (cond : α → β → Bool) :
    ∀ x ∈ leftJoinRow a r cond, x.1 = a := by
  intro x hx
  unfold leftJoinRow at hx
  split at hx
  · simp only [List.mem_singleton] at hx
    rw [hx]
  · obtain ⟨b, _, rfl⟩ := List.mem_map.mp hx
    rfl

theorem leftJoinRow_ne_nil {α β : Type} (a : α) (r : List β) (cond : α → β → Bool) :
    leftJoinRow a r cond ≠ [] := by
  unfold leftJoinRow
  split
  · simp
  · rename_i hne
    simpa using hne

/-- A left row that no right row matches is joined to NULL. -/
theorem leftJoinRow_of_no_match {α β : Type} (a : α) (r : List β) (cond : α → β → Bool)
    (h : r.filter (cond a) = []) : leftJoinRow a r cond = [(a, none)] := by
  unfold leftJoinRow
  rw [h]

/-- Under a unique key on the right table, a left row is joined to the one
row `find?` returns, or to NULL. -/
theorem leftJoinRow_of_unique {α β : Type} (a : α) (r : List β) (cond : α → β → Bool)
    (h : r.filter (cond a) = (r.find? (cond a)).toList) :
    leftJoinRow a r cond = [(a, r.find? (cond a))] := by
  unfold leftJoinRow
  rw [h]
  cases r.find? (cond a) <;> rfl

theorem leftJoin_nil {α β : Type} (r : List β) (cond : α → β → Bool) :
    leftJoin ([] : List α) r cond = [] := rfl

theorem leftJoin_cons {α β : Type} (a : α) (l : List α) (r : List β) (cond : α → β → Bool) :
    leftJoin (a :: l) r cond = leftJoinRow a r cond ++ leftJoin l r cond := by
  simp [leftJoin, List.flatMap_cons]

theorem leftJoin_singleton {α β : Type} (a : α) (r : List β) (cond : α → β → Bool) :
    leftJoin [a] r cond = leftJoinRow a r cond := by
  rw [leftJoin_cons, leftJoin_nil, List.append_nil]

/-- Selecting joined rows by their left row is joining the selected left rows. -/
theorem leftJoin_filter_left {α β : Type} (l : List α) (r : List β) (cond : α → β → Bool)
    (p : α → Bool) :
    (leftJoin l r cond).filter (fun x => p x.1) = leftJoin (l.filter p) r cond := by
  induction l with
  | nil => rfl
  | cons a l ih =>
    rw [leftJoin_cons, List.filter_append, ih]
    by_cases ha : p a = true
    · rw [List.filter_cons_of_pos ha, leftJoin_cons]
      congr 1
      rw [List.filter_eq_self]
      intro x hx
      rw [leftJoinRow_fst a r cond x hx]
      exact ha
    · rw [List.filter_cons_of_neg ha]
      have hnil : (leftJoinRow a r cond).filter (fun x => p x.1) = [] := by
        rw [List.filter_eq_nil_iff]
        intro x hx
        rw [leftJoinRow_fst a r cond x hx]
        exact ha
      rw [hnil, List.nil_append]

theorem leftJoin_of_no_match {α β : Type} (l : List α) (r : List β) (cond : α → β → Bool)
    (h : ∀ a ∈ l, r.filter (cond a) = []) :
    leftJoin l r cond = l.map (fun a => (a, none)) := by
  induction l with
  | nil => rfl
  | cons a l ih =>
    rw [leftJoin_cons, leftJoinRow_of_no_match a r cond (h a (List.mem_cons_self a l)),
      ih (fun b hb => h b (List.mem_cons_of_mem a hb))]
    rfl

theorem leftJoin_of_unique {α β : Type} (l : List α) (r : List β) (cond : α → β → Bool)
    (h : ∀ a ∈ l, r.filter (cond a) = (r.find? (cond a)).toList) :
    leftJoin l r cond = l.map (fun a => (a, r.find? (cond a))) := by
  induction l with
  | nil => rfl
  | cons a l ih =>
    rw [leftJoin_cons, leftJoinRow_of_unique a r cond (h a (List.mem_cons_self a l)),
      ih (fun b hb => h b (List.mem_cons_of_mem a hb))]
    rfl

/-- Every left row shows in the join. -/
theorem mem_map_fst_leftJoin {α β : Type} (l : List α) (r : List β) (cond : α → β → Bool)
    (a : α) : a ∈ (leftJoin l r cond).map (fun x => x.1) ↔ a ∈ l := by
  induction l with
  | nil => simp [leftJoin_nil]
  | cons b l ih =>
    rw [leftJoin_cons, List.map_append, List.mem_append, ih, List.mem_cons]
    constructor
    · rintro (h | h)
      · obtain ⟨x, hx, rfl⟩ := List.mem_map.mp h
        exact Or.inl (leftJoinRow_fst b r cond x hx)
      · exact Or.inr h
    · rintro (h | h)
      · left
        subst h
        cases hrow : leftJoinRow a r cond with
        | nil => exact absurd hrow (leftJoinRow_ne_nil a r cond)
        | cons x xs =>
          have hx : x.1 = a := leftJoinRow_fst a r cond x (by rw [hrow]; simp)
          simp [hx]
      · exact Or.inr h

/-- The SELECT list of a grouped query, over the groups in order. -/
theorem filterMap_groupBy {α γ : Type} (key : α → Nat) (rows : List α)
    (agg : List α → Option γ) :
    (groupBy key rows).filterMap agg =
      ((rows.map key).dedup.insertionSort (fun a b => a ≤ b)).filterMap
        (fun k => agg (rows.filter (fun r => key r == k))) := by
  simp [groupBy, List.filterMap_map, Function.comp_def]

/-- The keys of the groups are the keys of the rows, each once. -/
theorem groupKeys_perm {α : Type} (key : α → Nat) (rows : List α) (ids : List Nat)
    (hids : ids.Nodup) (hmem : ∀ k, k ∈ rows.map key ↔ k ∈ ids) :
    ((rows.map key).dedup.insertionSort (fun a b => a ≤ b)).Perm ids := by
  refine (List.perm_insertionSort _ _).trans ?_
  rw [List.perm_ext_iff_of_nodup (List.nodup_dedup _) hids]
  intro k
  rw [List.mem_dedup]
  exact hmem k

/-- Counting through `CASE WHEN … THEN 1 ELSE 0 END`. -/
theorem sum_map_ite_eq_length_filter {α : Type} (p : α → Bool) (l : List α) :
    (l.map (fun a => if p a = true then 1 else 0)).sum = (l.filter p).length := by
  induction l with
  | nil => rfl
  | cons a l ih =>
    by_cases ha : p a = true
    · simp [List.filter_cons, ha, ih, Nat.add_comm]
    · simp [List.filter_cons, ha, ih]

/-- In a table keyed by id, the rows of an id are the one row that carries it. -/
theorem filter_id_eq_singleton {α : Type} (id : α → Nat) (l : List α) (a : α)
    (h : (l.map id).Nodup) (ha : a ∈ l) :
    l.filter (fun x => id x == id a) = [a] := by
  rw [filter_eq_find_toList id (fun x => id x == id a) l h
    (fun x y hx hy => by simp only [beq_iff_eq] at hx hy; rw [hx, hy])]
  cases hfind : l.find? (fun x => id x == id a) with
  | none =>
    exact absurd (by simp) (List.find?_eq_none.mp hfind a ha)
  | some b =>
    have hb := List.mem_of_find?_eq_some hfind
    have hid := List.find?_some hfind
    simp only [beq_iff_eq] at hid
    rw [List.inj_on_of_nodup_map h hb ha hid]
    rfl

/-! ## The student-participation report -/

theorem filterMap_eq_map_of_some {α γ : Type} (g : α → Option γ) (f : α → γ) (l : List α)
    (h : ∀ a ∈ l, g a = some (f a)) : l.filterMap g = l.map f := by
  induction l with
  | nil => rfl
  | cons a l ih =>
    rw [List.filterMap_cons, h a (List.mem_cons_self a l), List.map_cons,
      ih (fun b hb => h b (List.mem_cons_of_mem a hb))]

/-- The present marks of the joined rows of one left row. -/
theorem sum_presentMark_leftJoinRow {α : Type} (a : α) (r : List Attendance)
    (cond : α → Attendance → Bool) :
    ((leftJoinRow a r cond).map (fun x => presentMark x.2)).sum
      = ((r.filter (cond a)).filter (fun b => b.status == "present")).length := by
  unfold leftJoinRow
  split
  · rename_i hnil
    rw [hnil]
    rfl
  · rw [List.map_map, ← sum_map_ite_eq_length_filter]
    congr 1
    apply List.map_congr_left
    intro b _
    simp [presentMark]

/-- The report row of one student: the group of the student's id. -/
theorem participationAggregate_student (s : Store) (st : Student) :
    participationAggregate (leftJoinRow st s.attendance (fun st a => st.id == a.student_id))
      = some ⟨st.id, st.name, st.email, presentCount s st.id⟩ := by
  have hsum := sum_presentMark_leftJoinRow st s.attendance (fun st a => st.id == a.student_id)
  cases hrow : leftJoinRow st s.attendance (fun st a => st.id == a.student_id) with
  | nil => exact absurd hrow (leftJoinRow_ne_nil _ _ _)
  | cons x xs =>
    have hx : x.1 = st := leftJoinRow_fst st _ _ x (by rw [hrow]; simp)
    rw [hrow] at hsum
    simp only [participationAggregate, hx, hsum, presentCount, List.filter_filter]
    congr 3
    apply List.filter_congr
    intro a _
    cases a.status == "present" <;> simp [eq_comm]

/-- The grouped rows: one per student, with the student's present marks. -/
theorem participationGroups_perm (s : Store) (hS : StudentsKeyed s) :
    (participationGroups s).Perm
      (s.students.map (fun st => ⟨st.id, st.name, st.email, presentCount s st.id⟩)) := by
  unfold participationGroups
  rw [filterMap_groupBy]
  have hkeys := groupKeys_perm (fun x : Student × Option Attendance => x.1.id)
    (participationJoin s) (s.students.map (fun st : Student => st.id)) hS (by
      intro k
      have hmap : (participationJoin s).map (fun x => x.1.id)
          = ((participationJoin s).map (fun x => x.1)).map (fun st => st.id) := by
        rw [List.map_map]; rfl
      rw [hmap, List.mem_map, List.mem_map]
      constructor
      · rintro ⟨st, hst, rfl⟩
        exact ⟨st, (mem_map_fst_leftJoin _ _ _ st).mp hst, rfl⟩
      · rintro ⟨st, hst, rfl⟩
        exact ⟨st, (mem_map_fst_leftJoin _ _ _ st).mpr hst, rfl⟩)
  refine (hkeys.filterMap _).trans (List.Perm.of_eq ?_)
  rw [List.filterMap_map]
  apply filterMap_eq_map_of_some
  intro st hst
  simp only [Function.comp, participationJoin]
  rw [leftJoin_filter_left s.students s.attendance (fun st a => st.id == a.student_id)
    (fun x => x.id == st.id), filter_id_eq_singleton (fun x : Student => x.id) _ st hS hst,
    leftJoin_singleton]
  exact participationAggregate_student s st

theorem participationOrder_total (a b : ParticipationRow) :
    participationOrder a b ∨ participationOrder b a := by
  unfold participationOrder
  rcases Nat.lt_trichotomy a.events_attended b.events_attended with h | h | h
  · exact Or.inr (Or.inl h)
  · rcases le_total a.name.toList b.name.toList with hn | hn
    · exact Or.inl (Or.inr ⟨h, hn⟩)
    · exact Or.inr (Or.inr ⟨h.symm, hn⟩)
  · exact Or.inl (Or.inl h)

theorem participationOrder_trans (a b c : ParticipationRow)
    (hab : participationOrder a b) (hbc : participationOrder b c) :
    participationOrder a c := by
  unfold participationOrder at *
  rcases hab with h1 | ⟨h1, n1⟩ <;> rcases hbc with h2 | ⟨h2, n2⟩
  · exact Or.inl (by omega)
  · exact Or.inl (by omega)
  · exact Or.inl (by omega)
  · exact Or.inr ⟨by omega, le_trans n1 n2⟩

/-- C10: with `students` keyed by id, the student-participation report is a
rearrangement of one row per student, the row carrying the number of the
student's Attendance rows with status 'present' over all events (so 0 for a
student without a present mark; Registrations play no part), and its rows are
in descending order of `events_attended`, equal counts in ascending order of
name.  A student none of whose Attendance rows is 'present' has
`events_attended = 0`. -/
theorem studentParticipation_rows (s : Store) (hS : StudentsKeyed s) :
    (studentParticipation s).Perm
      (s.students.map (fun st => ⟨st.id, st.name, st.email, presentCount s st.id⟩)) ∧
    (∀ row ∈ studentParticipation s,
      (∀ a ∈ s.attendance, a.student_id = row.student_id → a.status ≠ "present") →
        row.events_attended = 0) ∧
    (studentParticipation s).Pairwise (fun a b =>
      b.events_attended < a.events_attended ∨
        (a.events_attended = b.events_attended ∧ a.name ≤ b.name)) := by
  have hperm := (List.perm_insertionSort participationOrder (participationGroups s)).trans
    (participationGroups_perm s hS)
  refine ⟨hperm, ?_, ?_⟩
  · intro row hrow hnone
    obtain ⟨st, _, rfl⟩ := List.mem_map.mp (hperm.mem_iff.mp hrow)
    simp only [presentCount, List.length_eq_zero, List.filter_eq_nil_iff]
    intro a ha hp
    simp only [Bool.and_eq_true, beq_iff_eq] at hp
    exact hnone a ha hp.1 hp.2
  · have hsorted := @List.sorted_insertionSort _ participationOrder _
      ⟨participationOrder_total⟩ ⟨participationOrder_trans⟩ (participationGroups s)
    refine List.Pairwise.imp ?_ hsorted
    intro a b hab
    rcases hab with h | ⟨h, hn⟩
    · exact Or.inl h
    · exact Or.inr ⟨h, String.le_iff_toList_le.mpr hn⟩

/-- C10 (witness): A with two present marks, B with one, C with none give the
rows A, B, C, with C at `events_attended = 0`. -/
theorem studentParticipation_rows_witness :
    StudentsKeyed rankingStore ∧
    studentParticipation rankingStore
      = [⟨1, "A", "a@campus.edu", 2⟩, ⟨2, "B", "b@campus.edu", 1⟩, ⟨3, "C", "c@campus.edu", 0⟩] ∧
    (studentParticipation rankingStore).Pairwise (fun a b =>
      b.events_attended < a.events_attended ∨
        (a.events_attended = b.events_attended ∧ a.name ≤ b.name)) :=
  ⟨by decide, by decide, (studentParticipation_rows rankingStore (by decide)).2.2⟩

/-! ## The attendance report -/

/-- The group of an event id: the join of the events that carry the id. -/
theorem attendanceGroup_eq (s : Store) (k : Nat) :
    (attendanceJoin s).filter (fun x => x.1.1.id == k)
      = leftJoin (leftJoin (s.events.filter (fun ev => ev.id == k)) s.registrations
          registrationOn) s.attendance attendanceOn := by
  unfold attendanceJoin
  rw [leftJoin_filter_left _ s.attendance attendanceOn (fun er => er.1.id == k),
    leftJoin_filter_left s.events s.registrations registrationOn (fun ev => ev.id == k)]

theorem attendanceAggregate_cons
    (x : (Event × Option Registration) × Option Attendance)
    (xs : List ((Event × Option Registration) × Option Attendance)) :
    attendanceAggregate (x :: xs) = some
      { id := x.1.1.id
        title := x.1.1.title
        registrations := ((x :: xs).filter (fun y => y.1.2.isSome)).length
        presents := ((x :: xs).map (fun y => presentMark y.2)).sum
        attendance_percentage :=
          if ((x :: xs).filter (fun y => y.1.2.isSome)).length = 0 then some 0
          else sqlRound2 (sqlDiv
            (100 * ((((x :: xs).map (fun y => presentMark y.2)).sum : Nat) : ℚ))
            ((((x :: xs).filter (fun y => y.1.2.isSome)).length : Nat) : ℚ)) } := rfl

/-- A report row carries the id of its group. -/
theorem attendanceAggregate_id (s : Store) (k : Nat) (row : AttendanceReportRow)
    (h : attendanceAggregate ((attendanceJoin s).filter (fun x => x.1.1.id == k)) = some row) :
    row.id = k := by
  cases hg : (attendanceJoin s).filter (fun x => x.1.1.id == k) with
  | nil => rw [hg] at h; cases h
  | cons x xs =>
    rw [hg, attendanceAggregate_cons] at h
    have hx : x ∈ (attendanceJoin s).filter (fun x => x.1.1.id == k) := by
      rw [hg]; exact List.mem_cons_self x xs
    have hk := (List.mem_filter.mp hx).2
    simp only [beq_iff_eq] at hk
    cases h
    exact hk

/-- Every event id has a group. -/
theorem mem_attendanceJoin_keys (s : Store) (k : Nat) :
    k ∈ (attendanceJoin s).map (fun x => x.1.1.id) ↔ k ∈ s.events.map (fun ev => ev.id) := by
  have hmap : (attendanceJoin s).map (fun x => x.1.1.id)
      = (((attendanceJoin s).map (fun x => x.1)).map (fun er => er.1)).map
          (fun ev => ev.id) := by
    simp [List.map_map, Function.comp_def]
  rw [hmap, List.mem_map, List.mem_map]
  constructor
  · rintro ⟨ev, hev, rfl⟩
    obtain ⟨er, her, rfl⟩ := List.mem_map.mp hev
    have her' := (mem_map_fst_leftJoin _ _ _ er).mp her
    have := (mem_map_fst_leftJoin s.events s.registrations registrationOn er.1).mp
      (List.mem_map_of_mem (fun er => er.1) her')
    exact ⟨er.1, this, rfl⟩
  · rintro ⟨ev, hev, rfl⟩
    obtain ⟨er, her, rfl⟩ := List.mem_map.mp
      ((mem_map_fst_leftJoin s.events s.registrations registrationOn ev).mpr hev)
    have her' := (mem_map_fst_leftJoin _ s.attendance attendanceOn er).mpr her
    exact ⟨er.1, List.mem_map_of_mem (fun er => er.1) her', rfl⟩

/-- The group of an event without Registrations aggregates to zeros. -/
theorem attendanceAggregate_no_registrations (s : Store) (e : Event) (he : e ∈ s.events)
    (hno : ∀ r ∈ s.registrations, r.event_id ≠ e.id) :
    ∃ row, attendanceAggregate ((attendanceJoin s).filter (fun x => x.1.1.id == e.id))
        = some row ∧
      row.registrations = 0 ∧ row.presents = 0 ∧ row.attendance_percentage = some 0 ∧
        sqlRound2 (sqlDiv (100 * (row.presents : ℚ)) (row.registrations : ℚ)) = none := by
  have h1 : leftJoin (s.events.filter (fun ev => ev.id == e.id)) s.registrations registrationOn
      = (s.events.filter (fun ev => ev.id == e.id)).map (fun a => (a, none)) := by
    apply leftJoin_of_no_match
    intro e' he'
    have hid := (List.mem_filter.mp he').2
    simp only [beq_iff_eq] at hid
    rw [List.filter_eq_nil_iff]
    intro r hr hon
    simp only [registrationOn, beq_iff_eq] at hon
    exact hno r hr (hon.trans hid)
  have h2 : leftJoin ((s.events.filter (fun ev => ev.id == e.id)).map
        (fun a => ((a, none) : Event × Option Registration))) s.attendance attendanceOn
      = ((s.events.filter (fun ev => ev.id == e.id)).map (fun a => (a, none))).map
          (fun a => (a, none)) := by
    apply leftJoin_of_no_match
    intro er her
    obtain ⟨e', _, rfl⟩ := List.mem_map.mp her
    rw [List.filter_eq_nil_iff]
    intro a _
    simp [attendanceOn]
  rw [attendanceGroup_eq, h1, h2]
  cases hE : s.events.filter (fun ev => ev.id == e.id) with
  | nil =>
    have : e ∈ s.events.filter (fun ev => ev.id == e.id) :=
      List.mem_filter.mpr ⟨he, by simp⟩
    rw [hE] at this
    cases this
  | cons e0 rest =>
    simp only [List.map_cons, attendanceAggregate_cons]
    have hregs : (List.filter (fun y : (Event × Option Registration) × Option Attendance =>
        y.1.2.isSome) (((e0, none), none) ::
          (rest.map (fun a => ((a, none) : Event × Option Registration))).map
            (fun a => (a, none)))).length = 0 := by
      rw [List.length_eq_zero, List.filter_eq_nil_iff]
      intro y hy
      simp only [List.mem_cons, List.mem_map] at hy
      rcases hy with rfl | ⟨er, ⟨e', _, rfl⟩, rfl⟩ <;> simp
    have hsum : (List.map (fun y : (Event × Option Registration) × Option Attendance =>
        presentMark y.2) (((e0, none), none) ::
          (rest.map (fun a => ((a, none) : Event × Option Registration))).map
            (fun a => (a, none)))).sum = 0 := by
      rw [List.sum_eq_zero]
      intro n hn
      simp only [List.map_cons, List.map_map, List.mem_cons, List.mem_map] at hn
      rcases hn with rfl | ⟨e', _, rfl⟩ <;> rfl
    exact ⟨_, rfl, hregs, hsum, by rw [if_pos hregs], by
      simp only [hregs, hsum]
      simp [sqlDiv, sqlRound2]⟩

/-- C8: every event that has no Registration rows has a row in the attendance
report, and each report row of that event id carries `registrations = 0`,
`presents = 0` and `attendance_percentage` the number 0, not NULL, whatever
Attendance rows exist for the event.  The 0 is the one of the CASE branch: the
division `100.0 * presents / registrations` of the ELSE branch is by zero on
such a row and would be NULL. -/
theorem attendanceReport_no_registrations (s : Store) (e : Event) (he : e ∈ s.events)
    (hno : ∀ r ∈ s.registrations, r.event_id ≠ e.id) :
    (∃ row ∈ attendanceReport s, row.id = e.id) ∧
    ∀ row ∈ attendanceReport s, row.id = e.id →
      row.registrations = 0 ∧ row.presents = 0 ∧ row.attendance_percentage = some 0 ∧
        sqlRound2 (sqlDiv (100 * (row.presents : ℚ)) (row.registrations : ℚ)) = none := by
  obtain ⟨row0, hrow0, hzero⟩ := attendanceAggregate_no_registrations s e he hno
  unfold attendanceReport
  rw [filterMap_groupBy]
  constructor
  · refine ⟨row0, List.mem_filterMap.mpr ⟨e.id, ?_, hrow0⟩, attendanceAggregate_id s e.id row0 hrow0⟩
    rw [(List.perm_insertionSort _ _).mem_iff, List.mem_dedup, mem_attendanceJoin_keys]
    exact List.mem_map_of_mem (fun ev => ev.id) he
  · intro row hrow hid
    obtain ⟨k, _, hk⟩ := List.mem_filterMap.mp hrow
    have hkid := attendanceAggregate_id s k row hk
    rw [hid] at hkid
    subst hkid
    rw [hrow0] at hk
    cases hk
    exact hzero

/-- C8 (witness): the Workshop of the ranking scenario has no Registration,
while Attendance rows exist for it. -/
theorem attendanceReport_no_registrations_witness :
    (⟨2, "Workshop", none⟩ : Event) ∈ rankingStore.events ∧
    (∃ a ∈ rankingStore.attendance, a.event_id = 2) ∧
    (∃ row ∈ attendanceReport rankingStore, row.id = 2) ∧
    ∀ row ∈ attendanceReport rankingStore, row.id = 2 →
      row.registrations = 0 ∧ row.presents = 0 ∧ row.attendance_percentage = some 0 ∧
        sqlRound2 (sqlDiv (100 * (row.presents : ℚ)) (row.registrations : ℚ)) = none :=
  ⟨by decide, ⟨⟨4, 1, 2, "present", 13⟩, by decide, rfl⟩,
    attendanceReport_no_registrations rankingStore ⟨2, "Workshop", none⟩ (by decide)
      (by intro r hr; cases hr)⟩

/-- Under the unique key of `attendance`, the ON condition of the second join
selects the one row `find?` returns, if any. -/
theorem attendanceOn_unique (s : Store) (hA : AttendanceUnique s)
    (er : Event × Option Registration) :
    s.attendance.filter (attendanceOn er) = (s.attendance.find? (attendanceOn er)).toList := by
  apply filter_eq_find_toList (fun a : Attendance => (a.student_id, a.event_id)) _ _ hA
  intro x y hx hy
  unfold attendanceOn at hx hy
  cases her : er.2 with
  | none => rw [her] at hx; simp at hx
  | some r =>
    rw [her] at hx hy
    simp only [Bool.and_eq_true, beq_iff_eq] at hx hy
    rw [hx.1, hx.2, hy.1, hy.2]

/-- Under the unique key of `attendance`, the joined attendance of a
registration is marked present exactly when a present row of the pair exists. -/
theorem presentMark_find_attendanceOn (s : Store) (hA : AttendanceUnique s) (e : Event)
    (r : Registration) :
    presentMark (s.attendance.find? (attendanceOn (e, some r)))
      = if s.attendance.any (fun a =>
          a.event_id == e.id && a.student_id == r.student_id && a.status == "present") = true
        then 1 else 0 := by
  have hfilter := attendanceOn_unique s hA (e, some r)
  cases hfind : s.attendance.find? (attendanceOn (e, some r)) with
  | none =>
    have hnone := List.find?_eq_none.mp hfind
    rw [if_neg]
    · rfl
    · intro hany
      obtain ⟨a, ha, hp⟩ := List.any_eq_true.mp hany
      simp only [Bool.and_eq_true, beq_iff_eq] at hp
      exact hnone a ha (by simp [attendanceOn, hp.1.1, hp.1.2])
  | some a0 =>
    rw [hfind] at hfilter
    have hmem0 : a0 ∈ s.attendance := List.mem_of_find?_eq_some hfind
    have hp0 := List.find?_some hfind
    simp only [attendanceOn, Bool.and_eq_true, beq_iff_eq] at hp0
    by_cases hst : a0.status = "present"
    · rw [if_pos]
      · simp [presentMark, hst]
      · exact List.any_eq_true.mpr ⟨a0, hmem0, by simp [hp0.1, hp0.2, hst]⟩
    · rw [if_neg]
      · simp [presentMark, hst]
      · intro hany
        obtain ⟨a, ha, hp⟩ := List.any_eq_true.mp hany
        simp only [Bool.and_eq_true, beq_iff_eq] at hp
        have hin : a ∈ s.attendance.filter (attendanceOn (e, some r)) :=
          List.mem_filter.mpr ⟨ha, by simp [attendanceOn, hp.1.1, hp.1.2]⟩
        rw [hfilter] at hin
        simp only [Option.toList, List.mem_singleton] at hin
        rw [hin] at hp
        exact hst hp.2

/-- The rows of one left row that carry a right row are its matches. -/
theorem length_filter_isSome_leftJoinRow {α β : Type} (a : α) (r : List β)
    (cond : α → β → Bool) :
    ((leftJoinRow a r cond).filter (fun x => x.2.isSome)).length = (r.filter (cond a)).length := by
  unfold leftJoinRow
  split
  · rename_i hnil
    rw [hnil]
    rfl
  · rw [List.filter_map, List.length_map]
    congr 1
    rw [List.filter_eq_self]
    intro b _
    rfl

/-- A sum over the joined rows of one left row, of a term that is 0 on NULL. -/
theorem sum_map_leftJoinRow {α β : Type} (a : α) (r : List β) (cond : α → β → Bool)
    (F : α × Option β → Nat) (hF : F (a, none) = 0) :
    ((leftJoinRow a r cond).map F).sum = ((r.filter (cond a)).map (fun b => F (a, some b))).sum := by
  unfold leftJoinRow
  split
  · rename_i hnil
    rw [hnil]
    simp [hF]
  · rw [List.map_map]
    rfl

/-- The report row of one event under the keys of `events` and `attendance`. -/
theorem attendanceAggregate_event (s : Store) (hE : EventsKeyed s) (hA : AttendanceUnique s)
    (e : Event) (he : e ∈ s.events) :
    attendanceAggregate ((attendanceJoin s).filter (fun x => x.1.1.id == e.id)) = some
      { id := e.id
        title := e.title
        registrations := countRegistrations s e.id
        presents := (presentRegistrations s e.id).length
        attendance_percentage :=
          if countRegistrations s e.id = 0 then some 0
          else some (round2 (100 * ((presentRegistrations s e.id).length : ℚ) /
            (countRegistrations s e.id : ℚ))) } := by
  rw [attendanceGroup_eq, filter_id_eq_singleton (fun ev : Event => ev.id) _ e hE he,
    leftJoin_singleton, leftJoin_of_unique _ _ _ (fun er _ => attendanceOn_unique s hA er)]
  have hregs : (((leftJoinRow e s.registrations registrationOn).map
      (fun er => (er, s.attendance.find? (attendanceOn er)))).filter
        (fun y => y.1.2.isSome)).length = countRegistrations s e.id := by
    rw [List.filter_map, List.length_map]
    exact length_filter_isSome_leftJoinRow e s.registrations registrationOn
  have hsum : (((leftJoinRow e s.registrations registrationOn).map
      (fun er => (er, s.attendance.find? (attendanceOn er)))).map
        (fun y => presentMark y.2)).sum = (presentRegistrations s e.id).length := by
    rw [List.map_map]
    rw [sum_map_leftJoinRow e s.registrations registrationOn
      ((fun y : (Event × Option Registration) × Option Attendance => presentMark y.2) ∘
        (fun er => (er, s.attendance.find? (attendanceOn er))))]
    · simp only [Function.comp, presentMark_find_attendanceOn s hA e]
      rw [sum_map_ite_eq_length_filter
        (fun r : Registration => s.attendance.any (fun a =>
          a.event_id == e.id && a.student_id == r.student_id && a.status == "present")),
        List.filter_filter]
      unfold presentRegistrations
      congr 1
      apply List.filter_congr
      intro r _
      simp only [registrationOn]
      rw [Bool.and_comm]
    · simp only [Function.comp]
      have hnone : s.attendance.find? (attendanceOn (e, none)) = none := by
        rw [List.find?_eq_none]
        intro a _
        simp [attendanceOn]
      rw [hnone]
      rfl
  cases hrow : leftJoinRow e s.registrations registrationOn with
  | nil => exact absurd hrow (leftJoinRow_ne_nil _ _ _)
  | cons x xs =>
    have hx : x.1 = e := leftJoinRow_fst e _ _ x (by rw [hrow]; simp)
    rw [hrow, List.map_cons] at hregs hsum
    rw [List.map_cons, attendanceAggregate_cons, hregs, hsum]
    simp only [hx]
    by_cases hc : countRegistrations s e.id = 0
    · rw [if_pos hc, if_pos hc]
    · have hq : (countRegistrations s e.id : ℚ) ≠ 0 := by exact_mod_cast hc
      rw [if_neg hc, if_neg hc]
      simp only [sqlRound2, sqlDiv, if_neg hq, Option.map_some']

/-- C9: with `events` keyed by id and one Attendance row per (student, event),
the attendance report is a rearrangement of one row per event; the row's
`registrations` is the number of Registration rows of the event, its
`presents` the number of those Registrations whose (student, event) pair has
an Attendance row with status 'present', and `presents ≤ registrations` in
every row. -/
theorem attendanceReport_rows (s : Store) (hE : EventsKeyed s) (hA : AttendanceUnique s) :
    (attendanceReport s).Perm (s.events.map (fun e =>
      { id := e.id
        title := e.title
        registrations := countRegistrations s e.id
        presents := (presentRegistrations s e.id).length
        attendance_percentage :=
          if countRegistrations s e.id = 0 then some 0
          else some (round2 (100 * ((presentRegistrations s e.id).length : ℚ) /
            (countRegistrations s e.id : ℚ))) })) ∧
    ∀ row ∈ attendanceReport s, row.presents ≤ row.registrations := by
  have hperm : (attendanceReport s).Perm (s.events.map (fun e =>
      ({ id := e.id
         title := e.title
         registrations := countRegistrations s e.id
         presents := (presentRegistrations s e.id).length
         attendance_percentage :=
           if countRegistrations s e.id = 0 then some 0
           else some (round2 (100 * ((presentRegistrations s e.id).length : ℚ) /
             (countRegistrations s e.id : ℚ))) } : AttendanceReportRow))) := by
    unfold attendanceReport
    rw [filterMap_groupBy]
    have hkeys := groupKeys_perm (fun x : (Event × Option Registration) × Option Attendance =>
      x.1.1.id) (attendanceJoin s) (s.events.map (fun ev : Event => ev.id)) hE
      (mem_attendanceJoin_keys s)
    refine (hkeys.filterMap _).trans (List.Perm.of_eq ?_)
    rw [List.filterMap_map]
    apply filterMap_eq_map_of_some
    intro e he
    exact attendanceAggregate_event s hE hA e he
  refine ⟨hperm, ?_⟩
  intro row hrow
  obtain ⟨e, _, rfl⟩ := List.mem_map.mp (hperm.mem_iff.mp hrow)
  simp only [presentRegistrations, countRegistrations]
  have hsplit : s.registrations.filter (fun r => r.event_id == e.id &&
      s.attendance.any (fun a =>
        a.event_id == e.id && a.student_id == r.student_id && a.status == "present"))
      = (s.registrations.filter (fun r => r.event_id == e.id)).filter (fun r =>
          s.attendance.any (fun a =>
            a.event_id == e.id && a.student_id == r.student_id && a.status == "present")) := by
    rw [List.filter_filter]
    apply List.filter_congr
    intro r _
    rw [Bool.and_comm]
  rw [hsplit]
  exact List.length_filter_le _ _

/-- C9 (witness): two Registrations for the Hackathon, one of them present;
the present marks of the unregistered C (Hackathon) and A (Workshop) are not
counted. -/
theorem attendanceReport_rows_witness :
    EventsKeyed reportStore ∧ AttendanceUnique reportStore ∧
    (attendanceReport reportStore).map (fun row => (row.id, row.registrations, row.presents))
      = [(1, 2, 1), (2, 0, 0)] ∧
    ∀ row ∈ attendanceReport reportStore, row.presents ≤ row.registrations :=
  ⟨by decide, by decide, by decide,
    (attendanceReport_rows reportStore (by decide) (by decide)).2⟩

end EventManagement
